import Mathlib

/-!
# Verification of the authentication service core

A shallow embedding of the credential-validation and token-issuance
pipeline of the Express authentication server (backend server.js):
the validation routine, the registration and login operations over the
in-memory credential store, and the startup check for the signing secret.

JavaScript strings are modelled as Lean strings over their character
lists; the ASCII-only character case mapping mirrors the behaviour of
toLowerCase on the data this service handles.  The external bcrypt
primitives are parameters of the operations (the code treats them as
black boxes); the jsonwebtoken primitive is modelled by its documented
contract of signing a claims object with an expiry.
-/

namespace Auth

/-- Model of the JavaScript toLowerCase on a string: character-wise
lower-casing of the underlying character list. -/
def lowerStr (s : String) : String := String.mk (s.data.map Char.toLower)

/-- Remove the longest whitespace prefix and suffix of a character list.
Models the JavaScript String.prototype.trim. -/
def trimList (cs : List Char) : List Char :=
  (((cs.dropWhile Char.isWhitespace).reverse.dropWhile Char.isWhitespace)).reverse

/-- Model of the JavaScript trim on a string. -/
def trimStr (s : String) : String := String.mk (trimList s.data)

/-- Normalized email: trimmed then lower-cased (spec glossary). -/
def normEmail (s : String) : String := lowerStr (trimStr s)

/-- Case-insensitively normalized username: trimmed then lower-cased. -/
def normUser (s : String) : String := lowerStr (trimStr s)

/-- A character admissible inside the email pattern: the regex character
class excluding whitespace and the at sign. -/
def isEmailChar (c : Char) : Bool := !c.isWhitespace && c != '@'

/-- Split a character list at its first at sign, returning the parts
before and after it. -/
def splitAtSign : List Char → Option (List Char × List Char)
  | [] => none
  | c :: rest =>
    if c = '@' then some ([], rest)
    else
      match splitAtSign rest with
      | some (l, r) => some (c :: l, r)
      | none => none

/-- Does the list contain a dot that is not its last element?  Used for
the domain part of the email pattern, whose dot must be followed by at
least one character. -/
def dotNotLast : List Char → Bool
  | [] => false
  | [_] => false
  | c :: rest => c == '.' || dotNotLast rest

/-- The email format test of the validation routine: the anchored regex
with a nonempty local part without whitespace or at signs, an at sign,
and a domain without whitespace or at signs containing an interior dot
(at least one admissible character on each side of some dot). -/
def emailRegexTest (s : String) : Bool :=
  match splitAtSign s.data with
  | none => false
  | some (localPart, domainPart) =>
    localPart ≠ [] && localPart.all isEmailChar &&
      domainPart.all isEmailChar && dotNotLast (domainPart.drop 1)

/-- A loosely typed JSON field of the request payload: a string, or one
of the non-string shapes JavaScript can deliver, or absent. -/
inductive JsValue where
  | str (s : String)
  | num (n : Int)
  | boolVal (b : Bool)
  | objVal
  | arrVal
  | nullVal
  | undef
  deriving Repr, DecidableEq

/-- JavaScript falsiness of a payload field value (objects and arrays
are always truthy; the empty string, zero, false, null and undefined
are falsy). -/
def jsFalsy : JsValue → Bool
  | JsValue.str s => s == ""
  | JsValue.num n => n == 0
  | JsValue.boolVal b => !b
  | JsValue.objVal => false
  | JsValue.arrVal => false
  | JsValue.nullVal => true
  | JsValue.undef => true

/-- Is the field value a string (the typeof check)? -/
def isStr : JsValue → Bool
  | JsValue.str _ => true
  | _ => false

/-- The underlying string of a string-valued field; irrelevant default
for the non-string shapes, which the guards rule out before use. -/
def jsStr : JsValue → String
  | JsValue.str s => s
  | _ => ""

/-- The required-field guard of the validation routine on one field:
falsy, or not a string, or blank after trimming. -/
def requiredFail (v : JsValue) : Bool :=
  jsFalsy v || !isStr v || trimStr (jsStr v) == ""

/-- Email checks of validateAuthPayload: required, else length at most
254, else the format regex. -/
def emailErrors (email : JsValue) : List String :=
  if requiredFail email then ["Email is required."]
  else
    let trimmedEmail := trimStr (jsStr email)
    if trimmedEmail.length > 254 then ["Email must be 254 characters or less."]
    else if !emailRegexTest trimmedEmail then ["Email format is invalid."]
    else []

/-- Password checks of validateAuthPayload: required, else trimmed
length at least 8, else at most 128. -/
def passwordErrors (password : JsValue) : List String :=
  if requiredFail password then ["Password is required."]
  else
    let trimmedPassword := trimStr (jsStr password)
    if trimmedPassword.length < 8 then ["Password must be at least 8 characters long."]
    else if trimmedPassword.length > 128 then ["Password must be 128 characters or less."]
    else []

/-- Username checks of validateAuthPayload, run only when the username
is required: required, else trimmed length at least 3, else at most 30. -/
def usernameErrors (requireUsername : Bool) (username : JsValue) : List String :=
  if requireUsername then
    if requiredFail username then ["Username is required."]
    else
      let trimmedUsername := trimStr (jsStr username)
      if trimmedUsername.length < 3 then ["Username must be at least 3 characters long."]
      else if trimmedUsername.length > 30 then ["Username must be 30 characters or less."]
      else []
  else []

/-- The validation routine: the error messages pushed for the email,
password and (conditionally) username fields, in push order. -/
def validateAuthPayload (email password username : JsValue)
    (requireUsername : Bool) : List String :=
  emailErrors email ++ passwordErrors password ++ usernameErrors requireUsername username

/-- The three email messages the validation routine can produce. -/
def emailMessages : List String :=
  ["Email is required.", "Email must be 254 characters or less.", "Email format is invalid."]

/-- The three password messages the validation routine can produce. -/
def passwordMessages : List String :=
  ["Password is required.", "Password must be at least 8 characters long.",
    "Password must be 128 characters or less."]

/-- The three username messages the validation routine can produce. -/
def usernameMessages : List String :=
  ["Username is required.", "Username must be at least 3 characters long.",
    "Username must be 30 characters or less."]

/-- A stored account of the in-memory credential store. -/
structure Account where
  id : Nat
  username : String
  email : String
  passwordHash : String
  createdAt : String
  deriving Repr, DecidableEq

/-- Outcome kinds of the registration operation. -/
inductive RegisterResult where
  | validationFailed (errors : List String)
  | duplicateBoth
  | duplicateEmail
  | duplicateUsername
  | success
  deriving Repr, DecidableEq

/-- The HTTP status the register handler sends for each outcome. -/
def registerStatus : RegisterResult → Nat
  | RegisterResult.validationFailed _ => 400
  | RegisterResult.duplicateBoth => 409
  | RegisterResult.duplicateEmail => 409
  | RegisterResult.duplicateUsername => 409
  | RegisterResult.success => 201

/-- The message string the register handler sends for each outcome. -/
def registerMessage : RegisterResult → String
  | RegisterResult.validationFailed _ => "Validation failed."
  | RegisterResult.duplicateBoth => "Both username and email are already taken."
  | RegisterResult.duplicateEmail => "An account with this email already exists."
  | RegisterResult.duplicateUsername => "This username is already taken."
  | RegisterResult.success => "User registered successfully."

/-- The register handler: validation, normalization, the two duplicate
lookups, and on success the append of the freshly hashed account.
Returns the outcome together with the store after the request; hashFn
is the external bcrypt hash (cost factor fixed by the code), now the
creation timestamp. -/
def register (hashFn : String → String) (now : String) (users : List Account)
    (username email password : JsValue) : RegisterResult × List Account :=
  let validationErrors := validateAuthPayload email password username true
  if validationErrors.length > 0 then
    (RegisterResult.validationFailed validationErrors, users)
  else
    let normalizedEmail := lowerStr (trimStr (jsStr email))
    let normalizedUsername := trimStr (jsStr username)
    let existingEmail := users.find? fun u => lowerStr u.email == normalizedEmail
    let existingUsername :=
      users.find? fun u => lowerStr u.username == lowerStr normalizedUsername
    match existingEmail, existingUsername with
    | some _, some _ => (RegisterResult.duplicateBoth, users)
    | some _, none => (RegisterResult.duplicateEmail, users)
    | none, some _ => (RegisterResult.duplicateUsername, users)
    | none, none =>
      let newUser : Account :=
        { id := users.length + 1
          username := normalizedUsername
          email := normalizedEmail
          passwordHash := hashFn (jsStr password)
          createdAt := now }
      (RegisterResult.success, users ++ [newUser])

/-- The freshly built account a successful registration appends. -/
def freshAccount (hashFn : String → String) (now : String) (users : List Account)
    (username email password : JsValue) : Account :=
  { id := users.length + 1
    username := trimStr (jsStr username)
    email := lowerStr (trimStr (jsStr email))
    passwordHash := hashFn (jsStr password)
    createdAt := now }

/-- The claims object passed to the token signing call: exactly the
account fields id, username and email, nothing else. -/
structure TokenPayload where
  id : Nat
  username : String
  email : String
  deriving Repr, DecidableEq

/-- A signed token as the external signing primitive produces it:
the claims, issue and expiry times, and the signing secret standing
for the signature. -/
structure SignedToken where
  claims : TokenPayload
  iat : Nat
  exp : Nat
  sig : String
  deriving Repr, DecidableEq

/-- The expiresIn argument of the signing call, one hour, in seconds. -/
def oneHourSeconds : Nat := 3600

/-- Model of the external jsonwebtoken sign call by its documented
contract: the token carries the given claims and expires one hour
after issuance. -/
def jwtSign (payload : TokenPayload) (secret : String) (nowSec : Nat) : SignedToken :=
  { claims := payload, iat := nowSec, exp := nowSec + oneHourSeconds, sig := secret }

/-- Model of the external jsonwebtoken verify call: a token checked
with the right secret before its expiry yields exactly its claims. -/
def jwtVerify (token : SignedToken) (secret : String) (nowSec : Nat) : Option TokenPayload :=
  if token.sig == secret && nowSec < token.exp then some token.claims else none

/-- The JSON response of the login handler: HTTP status, success flag,
message, validation errors and the optional token. -/
structure LoginResponse where
  status : Nat
  success : Bool
  message : String
  errors : List String
  token : Option SignedToken
  deriving Repr, DecidableEq

/-- The login handler: validation, normalized email lookup, password
verification against the stored hash, and on success the signed token.
verifyFn is the external bcrypt compare. -/
def login (verifyFn : String → String → Bool) (secret : String) (nowSec : Nat)
    (users : List Account) (email password : JsValue) : LoginResponse :=
  let validationErrors := validateAuthPayload email password JsValue.undef false
  if validationErrors.length > 0 then
    { status := 400, success := false, message := "Validation failed.",
      errors := validationErrors, token := none }
  else
    let normalizedEmail := lowerStr (trimStr (jsStr email))
    match users.find? fun u => lowerStr u.email == normalizedEmail with
    | none =>
      { status := 401, success := false, message := "Invalid email or password.",
        errors := [], token := none }
    | some user =>
      if !verifyFn (jsStr password) user.passwordHash then
        { status := 401, success := false, message := "Invalid email or password.",
          errors := [], token := none }
      else
        { status := 200, success := true, message := "Login successful.",
          errors := [],
          token := some (jwtSign
            { id := user.id, username := user.username, email := user.email }
            secret nowSec) }

/-- Outcome of process startup. -/
inductive StartupResult where
  | fatalExit (code : Nat)
  | running (secret : String)
  deriving Repr, DecidableEq

/-- The startup check: JWT_SECRET read from the environment (absent or
empty is falsy) makes the process exit with code 1 before serving. -/
def startServer (jwtSecretEnv : Option String) : StartupResult :=
  match jwtSecretEnv with
  | none => StartupResult.fatalExit 1
  | some s => if s == "" then StartupResult.fatalExit 1 else StartupResult.running s

/-- A request touching the credential store.  Login requests never
write the store (the handler only reads users), so only registration
carries a store effect. -/
inductive AuthRequest where
  | registerReq (now : String) (username email password : JsValue)
  | loginReq (email password : JsValue)

/-- The store after handling one request. -/
def stepRequest (hashFn : String → String) (users : List Account) :
    AuthRequest → List Account
  | AuthRequest.registerReq now u e p => (register hashFn now users u e p).2
  | AuthRequest.loginReq _ _ => users

/-- The store reached from the empty store by a request sequence. -/
def runRequests (hashFn : String → String) (reqs : List AuthRequest) : List Account :=
  reqs.foldl (stepRequest hashFn) []

/-- The uniqueness invariant of the credential store: no two accounts
share a normalized email, none share a case-insensitively normalized
username. -/
def StoreInvariant (users : List Account) : Prop :=
  List.Pairwise
    (fun a b => normEmail a.email ≠ normEmail b.email ∧
      normUser a.username ≠ normUser b.username) users

/-- Stored accounts are kept in normalized form: the email trimmed and
lower-cased, the username trimmed. -/
def StoreNormalized (users : List Account) : Prop :=
  ∀ a ∈ users, a.email = lowerStr (trimStr a.email) ∧ a.username = trimStr a.username

/-! ## Character-level facts about the case mapping -/

theorem char_toNat_ofNat_of_lt {n : Nat} (h : n < 55296) : (Char.ofNat n).toNat = n := by
  rw [Char.ofNat, dif_pos (Or.inl h)]
  rfl

theorem toLower_of_upper {c : Char} (h1 : c.toNat ≥ 65) (h2 : c.toNat ≤ 90) :
    (Char.toLower c).toNat = c.toNat + 32 := by
  rw [Char.toLower]
  simp only [if_pos (And.intro h1 h2)]
  exact char_toNat_ofNat_of_lt (by omega)

theorem toLower_of_not_upper {c : Char} (h : ¬(c.toNat ≥ 65 ∧ c.toNat ≤ 90)) :
    Char.toLower c = c := by
  rw [Char.toLower]
  simp only [if_neg h]

theorem toLower_eq_low {c t : Char} (ht : t.toNat < 65) :
    Char.toLower c = t ↔ c = t := by
  by_cases h : c.toNat ≥ 65 ∧ c.toNat ≤ 90
  · have hlow := toLower_of_upper h.1 h.2
    constructor
    · intro he
      exact absurd (congrArg Char.toNat he) (by omega)
    · intro he
      exact absurd (congrArg Char.toNat he) (by omega)
  · rw [toLower_of_not_upper h]

theorem toLower_toLower (c : Char) : Char.toLower (Char.toLower c) = Char.toLower c := by
  by_cases h : c.toNat ≥ 65 ∧ c.toNat ≤ 90
  · have hlow := toLower_of_upper h.1 h.2
    exact toLower_of_not_upper (by omega)
  · simp [toLower_of_not_upper h]

theorem isWhitespace_toLower (c : Char) :
    (Char.toLower c).isWhitespace = c.isWhitespace := by
  simp only [Char.isWhitespace]
  rw [decide_eq_decide.mpr (toLower_eq_low (by decide)),
    decide_eq_decide.mpr (toLower_eq_low (by decide)),
    decide_eq_decide.mpr (toLower_eq_low (by decide)),
    decide_eq_decide.mpr (toLower_eq_low (by decide))]

theorem isWhitespace_comp_toLower :
    Char.isWhitespace ∘ Char.toLower = Char.isWhitespace :=
  funext isWhitespace_toLower

theorem beq_toLower_eq {c t : Char} (ht : t.toNat < 65) :
    (Char.toLower c == t) = (c == t) :=
  decide_eq_decide.mpr (toLower_eq_low ht)

theorem isEmailChar_toLower (c : Char) : isEmailChar (Char.toLower c) = isEmailChar c := by
  simp only [isEmailChar, isWhitespace_toLower, bne, beq_toLower_eq (by decide : ('@').toNat < 65)]

/-! ## Facts about trimming and lower-casing -/

theorem head?_dropWhile_false {p : α → Bool} {l : List α} {a : α}
    (h : (l.dropWhile p).head? = some a) : p a = false := by
  have hd := List.head?_dropWhile_not p l
  rw [h] at hd
  exact hd

theorem dropWhile_eq_self_of_head {p : α → Bool} {l : List α}
    (h : ∀ a, l.head? = some a → p a = false) : l.dropWhile p = l := by
  cases l with
  | nil => rfl
  | cons c t =>
    have hc := h c rfl
    simp [List.dropWhile_cons, hc]

theorem getLast?_dropWhile {p : α → Bool} :
    ∀ l : List α, l.dropWhile p ≠ [] → (l.dropWhile p).getLast? = l.getLast?
  | [], h => absurd rfl h
  | c :: t, h => by
    by_cases hc : p c
    · rw [List.dropWhile_cons_of_pos hc] at h ⊢
      have ht : t ≠ [] := by
        intro he
        rw [he] at h
        exact h rfl
      rw [getLast?_dropWhile t h]
      cases t with
      | nil => exact absurd rfl ht
      | cons d t2 => simp
    · rw [List.dropWhile_cons_of_neg hc]

theorem head?_trimList {cs : List Char} {a : Char}
    (h : (trimList cs).head? = some a) : a.isWhitespace = false := by
  rw [trimList, List.head?_reverse] at h
  have hne : (cs.dropWhile Char.isWhitespace).reverse.dropWhile Char.isWhitespace ≠ [] := by
    intro he
    rw [he] at h
    simp at h
  rw [getLast?_dropWhile _ hne, List.getLast?_reverse] at h
  exact head?_dropWhile_false h

theorem getLast?_trimList {cs : List Char} {a : Char}
    (h : (trimList cs).getLast? = some a) : a.isWhitespace = false := by
  rw [trimList, List.getLast?_reverse] at h
  exact head?_dropWhile_false h

theorem trimList_eq_self {l : List Char}
    (hh : ∀ a, l.head? = some a → a.isWhitespace = false)
    (hl : ∀ a, l.getLast? = some a → a.isWhitespace = false) :
    trimList l = l := by
  rw [trimList, dropWhile_eq_self_of_head hh]
  rw [dropWhile_eq_self_of_head (fun a ha => hl a (by rwa [List.head?_reverse] at ha))]
  exact List.reverse_reverse l

theorem trimList_trimList (cs : List Char) : trimList (trimList cs) = trimList cs :=
  trimList_eq_self (fun _ h => head?_trimList h) (fun _ h => getLast?_trimList h)

theorem trimList_map_toLower (cs : List Char) :
    trimList (cs.map Char.toLower) = (trimList cs).map Char.toLower := by
  rw [trimList, trimList, List.dropWhile_map, isWhitespace_comp_toLower,
    ← List.map_reverse, List.dropWhile_map, isWhitespace_comp_toLower, ← List.map_reverse]

theorem trimStr_trimStr (s : String) : trimStr (trimStr s) = trimStr s :=
  congrArg String.mk (trimList_trimList s.data)

theorem lowerStr_mk (l : List Char) : lowerStr (String.mk l) = String.mk (l.map Char.toLower) :=
  rfl

theorem trimStr_lowerStr (s : String) : trimStr (lowerStr s) = lowerStr (trimStr s) :=
  congrArg String.mk (trimList_map_toLower s.data)

theorem lowerStr_lowerStr (s : String) : lowerStr (lowerStr s) = lowerStr s := by
  apply congrArg String.mk
  show (s.data.map Char.toLower).map Char.toLower = s.data.map Char.toLower
  rw [List.map_map]
  exact List.map_congr_left (fun c _ => toLower_toLower c)

theorem length_lowerStr (s : String) : (lowerStr s).length = s.length := by
  cases s with
  | mk l => simp [lowerStr, String.length_mk]

theorem normEmail_normEmail (s : String) : normEmail (normEmail s) = normEmail s := by
  rw [normEmail, normEmail, trimStr_lowerStr, trimStr_trimStr, lowerStr_lowerStr]

theorem normUser_lowerStr_trimStr (s : String) :
    normUser (lowerStr (trimStr s)) = lowerStr (trimStr s) :=
  normEmail_normEmail s

theorem normUser_trimStr (s : String) : normUser (trimStr s) = normUser s := by
  rw [normUser, normUser, trimStr_trimStr]

/-! ## The email format test is invariant under lower-casing -/

theorem splitAtSign_map_toLower : ∀ cs : List Char,
    splitAtSign (cs.map Char.toLower) =
      (splitAtSign cs).map (fun pr => (pr.1.map Char.toLower, pr.2.map Char.toLower))
  | [] => rfl
  | c :: rest => by
    simp only [List.map_cons, splitAtSign]
    by_cases h : c = '@'
    · rw [if_pos ((toLower_eq_low (by decide)).mpr h), if_pos h]
      rfl
    · rw [if_neg (fun he => h ((toLower_eq_low (by decide)).mp he)), if_neg h,
        splitAtSign_map_toLower rest]
      cases splitAtSign rest with
      | none => rfl
      | some pr => rfl

theorem dotNotLast_map_toLower : ∀ cs : List Char,
    dotNotLast (cs.map Char.toLower) = dotNotLast cs
  | [] => rfl
  | [_] => rfl
  | c :: d :: t => by
    simp only [List.map_cons, dotNotLast]
    rw [show Char.toLower d :: t.map Char.toLower = (d :: t).map Char.toLower from rfl]
    rw [dotNotLast_map_toLower (d :: t)]
    rw [beq_toLower_eq (by decide : ('.').toNat < 65)]

theorem all_isEmailChar_map_toLower (cs : List Char) :
    (cs.map Char.toLower).all isEmailChar = cs.all isEmailChar := by
  rw [List.all_map]
  congr 1
  funext c
  exact isEmailChar_toLower c

theorem emailRegexTest_lowerStr (s : String) :
    emailRegexTest (lowerStr s) = emailRegexTest s := by
  show emailRegexTest (String.mk (s.data.map Char.toLower)) = emailRegexTest s
  rw [emailRegexTest, emailRegexTest]
  show (match splitAtSign (s.data.map Char.toLower) with
    | none => false
    | some (localPart, domainPart) =>
      localPart ≠ [] && localPart.all isEmailChar &&
        domainPart.all isEmailChar && dotNotLast (domainPart.drop 1)) = _
  rw [splitAtSign_map_toLower]
  cases splitAtSign s.data with
  | none => rfl
  | some pr =>
    obtain ⟨localPart, domainPart⟩ := pr
    simp only [Option.map_some']
    rw [← List.map_drop, dotNotLast_map_toLower, all_isEmailChar_map_toLower,
      all_isEmailChar_map_toLower]
    simp [List.map_eq_nil_iff]

/-! ## Facts about the validation routine -/

theorem lowerStr_empty : lowerStr "" = "" := rfl

theorem trimStr_empty : trimStr "" = "" := rfl

theorem lowerStr_eq_empty_iff (s : String) : lowerStr s = "" ↔ s = "" := by
  cases s with
  | mk l =>
    constructor
    · intro h
      have hd : l.map Char.toLower = [] := congrArg String.data h
      rw [List.map_eq_nil_iff] at hd
      rw [hd]
    · intro h
      rw [h]
      exact lowerStr_empty

theorem requiredFail_str (s : String) :
    requiredFail (JsValue.str s) = (s == "" || trimStr s == "") := by
  simp [requiredFail, jsFalsy, isStr, jsStr]

theorem requiredFail_str_false {s : String} (h : trimStr s ≠ "") :
    requiredFail (JsValue.str s) = false := by
  rw [requiredFail_str]
  have hs : s ≠ "" := fun he => h (by rw [he]; rfl)
  simp [hs, h]

theorem trim_ne_of_requiredFail_false {s : String}
    (h : requiredFail (JsValue.str s) = false) : trimStr s ≠ "" := by
  rw [requiredFail_str] at h
  simp only [Bool.or_eq_false_iff, beq_eq_false_iff_ne, ne_eq] at h
  exact h.2

theorem emailErrors_mem {v : JsValue} {m : String} (hm : m ∈ emailErrors v) :
    m ∈ emailMessages := by
  simp only [emailErrors] at hm
  split at hm
  · simp only [List.mem_singleton] at hm
    simp [hm, emailMessages]
  · split at hm
    · simp only [List.mem_singleton] at hm
      simp [hm, emailMessages]
    · split at hm
      · simp only [List.mem_singleton] at hm
        simp [hm, emailMessages]
      · simp at hm

theorem passwordErrors_mem {v : JsValue} {m : String} (hm : m ∈ passwordErrors v) :
    m ∈ passwordMessages := by
  simp only [passwordErrors] at hm
  split at hm
  · simp only [List.mem_singleton] at hm
    simp [hm, passwordMessages]
  · split at hm
    · simp only [List.mem_singleton] at hm
      simp [hm, passwordMessages]
    · split at hm
      · simp only [List.mem_singleton] at hm
        simp [hm, passwordMessages]
      · simp at hm

theorem usernameErrors_mem {req : Bool} {v : JsValue} {m : String}
    (hm : m ∈ usernameErrors req v) : m ∈ usernameMessages := by
  simp only [usernameErrors] at hm
  split at hm
  · split at hm
    · simp only [List.mem_singleton] at hm
      simp [hm, usernameMessages]
    · split at hm
      · simp only [List.mem_singleton] at hm
        simp [hm, usernameMessages]
      · split at hm
        · simp only [List.mem_singleton] at hm
          simp [hm, usernameMessages]
        · simp at hm
  · simp at hm

theorem emailMessages_not_password : ∀ m ∈ emailMessages, m ∉ passwordMessages := by
  decide

theorem usernameMessages_not_password : ∀ m ∈ usernameMessages, m ∉ passwordMessages := by
  decide

theorem passwordMessages_not_email : ∀ m ∈ passwordMessages, m ∉ emailMessages := by
  decide

theorem usernameMessages_not_email : ∀ m ∈ usernameMessages, m ∉ emailMessages := by
  decide

theorem emailErrors_nil_iff (s : String) :
    emailErrors (JsValue.str s) = [] ↔
      requiredFail (JsValue.str s) = false ∧ ¬(trimStr s).length > 254 ∧
        emailRegexTest (trimStr s) = true := by
  simp only [emailErrors, jsStr]
  constructor
  · intro h
    split at h
    · simp at h
    · rename_i h1
      split at h
      · simp at h
      · rename_i h2
        split at h
        · simp at h
        · rename_i h3
          rw [Bool.not_eq_true] at h1
          exact ⟨h1, h2, by simpa using h3⟩
  · rintro ⟨h1, h2, h3⟩
    rw [if_neg (by simp [h1]), if_neg h2, if_neg (by simp [h3])]

/-! ## Unfolding the register and login handlers -/

theorem register_of_invalid {hashFn : String → String} {now : String}
    {users : List Account} {username email password : JsValue}
    (hv : validateAuthPayload email password username true ≠ []) :
    register hashFn now users username email password =
      (RegisterResult.validationFailed (validateAuthPayload email password username true),
        users) := by
  have hl : (validateAuthPayload email password username true).length > 0 :=
    List.length_pos.mpr hv
  simp [register, hl]

theorem register_of_valid {hashFn : String → String} {now : String}
    {users : List Account} {username email password : JsValue}
    (hv : validateAuthPayload email password username true = []) :
    register hashFn now users username email password =
      (match users.find? (fun u => lowerStr u.email == lowerStr (trimStr (jsStr email))),
          users.find? (fun u => lowerStr u.username == lowerStr (trimStr (jsStr username))) with
        | some _, some _ => (RegisterResult.duplicateBoth, users)
        | some _, none => (RegisterResult.duplicateEmail, users)
        | none, some _ => (RegisterResult.duplicateUsername, users)
        | none, none =>
          (RegisterResult.success,
            users ++ [freshAccount hashFn now users username email password])) := by
  simp [register, hv, freshAccount]

theorem login_of_valid {verifyFn : String → String → Bool} {secret : String} {nowSec : Nat}
    {users : List Account} {email password : JsValue}
    (hv : validateAuthPayload email password JsValue.undef false = []) :
    login verifyFn secret nowSec users email password =
      (match users.find? (fun u => lowerStr u.email == lowerStr (trimStr (jsStr email))) with
        | none =>
          { status := 401, success := false, message := "Invalid email or password.",
            errors := [], token := none }
        | some user =>
          if !verifyFn (jsStr password) user.passwordHash then
            { status := 401, success := false, message := "Invalid email or password.",
              errors := [], token := none }
          else
            { status := 200, success := true, message := "Login successful.",
              errors := [],
              token := some (jwtSign
                { id := user.id, username := user.username, email := user.email }
                secret nowSec) }) := by
  simp [login, hv]

theorem login_of_invalid {verifyFn : String → String → Bool} {secret : String} {nowSec : Nat}
    {users : List Account} {email password : JsValue}
    (hv : validateAuthPayload email password JsValue.undef false ≠ []) :
    login verifyFn secret nowSec users email password =
      { status := 400, success := false, message := "Validation failed.",
        errors := validateAuthPayload email password JsValue.undef false, token := none } := by
  have hl : (validateAuthPayload email password JsValue.undef false).length > 0 :=
    List.length_pos.mpr hv
  simp [login, hl]

/-! ## Claims -/

/-- Claim C6: at startup, an absent signing secret (or an empty one, equally falsy
in the environment check) makes the process terminate fatally with the
non-zero exit code 1, and a server that reached the running state always
holds an operator-supplied nonempty secret — there is no default fallback. -/
theorem startup_requires_secret (env : Option String) :
    ((env = none ∨ env = some "") →
      startServer env = StartupResult.fatalExit 1 ∧ (1 : Nat) ≠ 0) ∧
    (∀ s, startServer env = StartupResult.running s → env = some s ∧ s ≠ "") := by
  constructor
  · rintro (rfl | rfl)
    · exact ⟨rfl, by decide⟩
    · exact ⟨by decide, by decide⟩
  · intro s hs
    cases env with
    | none => simp [startServer] at hs
    | some t =>
      rw [startServer] at hs
      by_cases ht : t == ""
      · rw [if_pos ht] at hs
        simp at hs
      · rw [if_neg ht] at hs
        injection hs with h
        subst h
        exact ⟨rfl, by simpa using ht⟩

theorem startup_requires_secret_witness :
    startServer none = StartupResult.fatalExit 1 ∧ (1 : Nat) ≠ 0 :=
  (startup_requires_secret none).1 (Or.inl rfl)

/-- Claim C3: every failing registration — validation failure or any of the three
duplicate outcomes — leaves the credential store exactly as it was: no
account is appended and no stored account is modified. -/
theorem register_failure_preserves_store
    (hashFn : String → String) (now : String) (users : List Account)
    (username email password : JsValue)
    (h : (register hashFn now users username email password).1 ≠ RegisterResult.success) :
    (register hashFn now users username email password).2 = users := by
  by_cases hv : validateAuthPayload email password username true = []
  · rw [register_of_valid hv] at h ⊢
    rcases hfe : users.find? (fun u => lowerStr u.email == lowerStr (trimStr (jsStr email)))
        with _ | a <;>
      rcases hfu : users.find?
          (fun u => lowerStr u.username == lowerStr (trimStr (jsStr username))) with _ | b <;>
      (rw [hfe, hfu] at h ⊢
       all_goals first
       | rfl
       | exact absurd rfl h)
  · rw [register_of_invalid hv]

theorem register_failure_preserves_store_witness :
    (register (fun p => p) "t0" [] (JsValue.str "al") (JsValue.str "a@b.com")
      (JsValue.str "password123")).2 = [] :=
  register_failure_preserves_store (fun p => p) "t0" [] (JsValue.str "al")
    (JsValue.str "a@b.com") (JsValue.str "password123") (by decide)

/-- Claim C10: a required field that is absent, is not a string (number, object,
array, boolean, null), or is blank after trimming yields exactly the single
required message for that field and undergoes no length or format check;
the validation routine is a total function on all payload shapes, so no
such value can crash it. -/
theorem validation_required_single (v : JsValue)
    (h : isStr v = false ∨ ∃ s, v = JsValue.str s ∧ trimStr s = "") :
    requiredFail v = true ∧
    emailErrors v = ["Email is required."] ∧
    passwordErrors v = ["Password is required."] ∧
    usernameErrors true v = ["Username is required."] := by
  have hreq : requiredFail v = true := by
    rcases h with h | ⟨s, rfl, hs⟩
    · simp [requiredFail, h]
    · simp [requiredFail, jsStr, hs]
  exact ⟨hreq, by simp [emailErrors, hreq], by simp [passwordErrors, hreq],
    by simp [usernameErrors, hreq]⟩

theorem validation_required_single_witness :
    requiredFail (JsValue.num 5) = true ∧
    emailErrors (JsValue.num 5) = ["Email is required."] ∧
    passwordErrors (JsValue.num 5) = ["Password is required."] ∧
    usernameErrors true (JsValue.num 5) = ["Username is required."] :=
  validation_required_single (JsValue.num 5) (Or.inl rfl)

/-- Claim C1: once validation passes, registration decides duplicates three ways
from the two independent store lookups: both lookups matching (possibly
different accounts) yields DuplicateBoth, only the email lookup
DuplicateEmail, only the username lookup DuplicateUsername, all carried
with HTTP status 409; neither lookup short-circuits the other, as the
DuplicateBoth case depends on both outcomes. -/
theorem register_duplicate_threeway
    (hashFn : String → String) (now : String) (users : List Account)
    (username email password : JsValue)
    (hv : validateAuthPayload email password username true = []) :
    (∀ a b,
      users.find? (fun u => lowerStr u.email == lowerStr (trimStr (jsStr email))) = some a →
      users.find? (fun u => lowerStr u.username == lowerStr (trimStr (jsStr username)))
        = some b →
      (register hashFn now users username email password).1 = RegisterResult.duplicateBoth) ∧
    (∀ a,
      users.find? (fun u => lowerStr u.email == lowerStr (trimStr (jsStr email))) = some a →
      users.find? (fun u => lowerStr u.username == lowerStr (trimStr (jsStr username))) = none →
      (register hashFn now users username email password).1 = RegisterResult.duplicateEmail) ∧
    (∀ b,
      users.find? (fun u => lowerStr u.email == lowerStr (trimStr (jsStr email))) = none →
      users.find? (fun u => lowerStr u.username == lowerStr (trimStr (jsStr username)))
        = some b →
      (register hashFn now users username email password).1
        = RegisterResult.duplicateUsername) ∧
    (users.find? (fun u => lowerStr u.email == lowerStr (trimStr (jsStr email))) = none →
      users.find? (fun u => lowerStr u.username == lowerStr (trimStr (jsStr username))) = none →
      (register hashFn now users username email password).1 = RegisterResult.success) ∧
    registerStatus RegisterResult.duplicateBoth = 409 ∧
    registerStatus RegisterResult.duplicateEmail = 409 ∧
    registerStatus RegisterResult.duplicateUsername = 409 := by
  rw [register_of_valid hv]
  refine ⟨?_, ?_, ?_, ?_, rfl, rfl, rfl⟩
  · intro a b hfe hfu
    rw [hfe, hfu]
  · intro a hfe hfu
    rw [hfe, hfu]
  · intro b hfe hfu
    rw [hfe, hfu]
  · intro hfe hfu
    rw [hfe, hfu]

theorem register_duplicate_threeway_witness :
    (register (fun p => p) "t1"
      [{ id := 1, username := "alice", email := "a@b.com", passwordHash := "h",
         createdAt := "t0" }]
      (JsValue.str "Alice") (JsValue.str " A@B.com") (JsValue.str "password123")).1 =
      RegisterResult.duplicateBoth :=
  (register_duplicate_threeway (fun p => p) "t1"
    [{ id := 1, username := "alice", email := "a@b.com", passwordHash := "h",
       createdAt := "t0" }]
    (JsValue.str "Alice") (JsValue.str " A@B.com") (JsValue.str "password123")
    (by decide)).1
    { id := 1, username := "alice", email := "a@b.com", passwordHash := "h", createdAt := "t0" }
    { id := 1, username := "alice", email := "a@b.com", passwordHash := "h", createdAt := "t0" }
    (by decide) (by decide)

/-- Claim C2: for a validated login request, a lookup miss on the normalized email
and a password verification mismatch on a found account produce literally the
same response record: status 401 and the identical message text, so the
response does not reveal whether the email is registered. -/
theorem login_enumeration_safe
    (verifyFn : String → String → Bool) (secret : String) (nowSec : Nat)
    (users : List Account) (email password : JsValue)
    (hv : validateAuthPayload email password JsValue.undef false = []) :
    (users.find? (fun u => lowerStr u.email == lowerStr (trimStr (jsStr email))) = none →
      login verifyFn secret nowSec users email password =
        { status := 401, success := false, message := "Invalid email or password.",
          errors := [], token := none }) ∧
    (∀ u,
      users.find? (fun u => lowerStr u.email == lowerStr (trimStr (jsStr email))) = some u →
      verifyFn (jsStr password) u.passwordHash = false →
      login verifyFn secret nowSec users email password =
        { status := 401, success := false, message := "Invalid email or password.",
          errors := [], token := none }) := by
  rw [login_of_valid hv]
  constructor
  · intro hfe
    rw [hfe]
  · intro u hfe hvf
    rw [hfe]
    simp [hvf]

theorem login_enumeration_safe_witness :
    login (fun p h => h == "h" ++ p) "sec" 0 [] (JsValue.str "a@b.com")
      (JsValue.str "password123") =
      { status := 401, success := false, message := "Invalid email or password.",
        errors := [], token := none } :=
  (login_enumeration_safe (fun p h => h == "h" ++ p) "sec" 0 [] (JsValue.str "a@b.com")
    (JsValue.str "password123") (by decide)).1 (by decide)

/-- Claim C7 counterexample: the raw password "  abcdef" has length 8, inside
[8,128], yet the validation routine reports a password message, because the
length rules are applied to the trimmed password (here of length 6). -/
theorem password_raw_length_counterexample :
    ("  abcdef" : String).length = 8 ∧
    validateAuthPayload (JsValue.str "a@b.com") (JsValue.str "  abcdef")
      JsValue.undef false = ["Password must be at least 8 characters long."] ∧
    "Password must be at least 8 characters long." ∈ passwordMessages := by
  refine ⟨by decide, by decide, by decide⟩

/-- Claim C7 as amended: for every string password whose trimmed length is between
8 and 128 inclusive, the validation output contains no password-related
message, whatever the other fields hold. -/
theorem password_valid_no_password_message (p : String)
    (h8 : 8 ≤ (trimStr p).length) (h128 : (trimStr p).length ≤ 128)
    (email username : JsValue) (requireUsername : Bool) :
    ∀ m ∈ validateAuthPayload email (JsValue.str p) username requireUsername,
      m ∉ passwordMessages := by
  have hne : trimStr p ≠ "" := by
    intro he
    rw [he] at h8
    simp at h8
  have hpe : passwordErrors (JsValue.str p) = [] := by
    simp only [passwordErrors, requiredFail_str_false hne, Bool.false_eq_true, if_false, jsStr]
    rw [if_neg (by omega), if_neg (by omega)]
  intro m hm
  rw [validateAuthPayload, hpe] at hm
  simp only [List.append_nil, List.nil_append, List.mem_append] at hm
  rcases hm with hm | hm
  · exact emailMessages_not_password m (emailErrors_mem hm)
  · exact usernameMessages_not_password m (usernameErrors_mem hm)

theorem password_valid_no_password_message_witness :
    8 ≤ (trimStr "password123").length ∧ (trimStr "password123").length ≤ 128 ∧
    ∀ m ∈ validateAuthPayload (JsValue.str "a@b.com") (JsValue.str "password123")
        (JsValue.str "alice") true, m ∉ passwordMessages :=
  ⟨by decide, by decide,
    password_valid_no_password_message "password123" (by decide) (by decide)
      (JsValue.str "a@b.com") (JsValue.str "alice") true⟩

/-- Claim C8: an email whose trimmed length exceeds 254 produces exactly one
email-related message — the length message — and never the format message
nor the required message: the length and format checks are mutually
exclusive for any single input. -/
theorem email_too_long_single_message (e : String)
    (h : 254 < (trimStr e).length) (password username : JsValue) (requireUsername : Bool) :
    emailErrors (JsValue.str e) = ["Email must be 254 characters or less."] ∧
    "Email format is invalid." ∉
      validateAuthPayload (JsValue.str e) password username requireUsername ∧
    "Email is required." ∉
      validateAuthPayload (JsValue.str e) password username requireUsername ∧
    List.count "Email must be 254 characters or less."
      (validateAuthPayload (JsValue.str e) password username requireUsername) = 1 := by
  have hne : trimStr e ≠ "" := by
    intro he
    rw [he] at h
    simp at h
  have hee : emailErrors (JsValue.str e) = ["Email must be 254 characters or less."] := by
    simp only [emailErrors, requiredFail_str_false hne, Bool.false_eq_true, if_false, jsStr]
    rw [if_pos (by omega)]
  refine ⟨hee, ?_, ?_, ?_⟩
  · intro hm
    rw [validateAuthPayload, hee] at hm
    simp only [List.mem_append, List.mem_singleton] at hm
    rcases hm with (hm | hm) | hm
    · exact absurd hm (by decide)
    · exact (passwordMessages_not_email _ (passwordErrors_mem hm)) (by decide)
    · exact (usernameMessages_not_email _ (usernameErrors_mem hm)) (by decide)
  · intro hm
    rw [validateAuthPayload, hee] at hm
    simp only [List.mem_append, List.mem_singleton] at hm
    rcases hm with (hm | hm) | hm
    · exact absurd hm (by decide)
    · exact (passwordMessages_not_email _ (passwordErrors_mem hm)) (by decide)
    · exact (usernameMessages_not_email _ (usernameErrors_mem hm)) (by decide)
  · rw [validateAuthPayload, hee, List.count_append, List.count_append]
    have hcp : List.count "Email must be 254 characters or less."
        (passwordErrors password) = 0 := by
      rw [List.count_eq_zero]
      intro hm
      exact (passwordMessages_not_email _ (passwordErrors_mem hm)) (by decide)
    have hcu : List.count "Email must be 254 characters or less."
        (usernameErrors requireUsername username) = 0 := by
      rw [List.count_eq_zero]
      intro hm
      exact (usernameMessages_not_email _ (usernameErrors_mem hm)) (by decide)
    rw [hcp, hcu]
    decide

set_option maxRecDepth 16384 in
theorem email_too_long_single_message_witness :
    254 < (trimStr (String.mk (List.replicate 255 'a'))).length ∧
    emailErrors (JsValue.str (String.mk (List.replicate 255 'a'))) =
      ["Email must be 254 characters or less."] :=
  ⟨by decide,
    (email_too_long_single_message (String.mk (List.replicate 255 'a')) (by decide)
      (JsValue.str "password123") (JsValue.str "alice") true).1⟩

theorem login_success_token {verifyFn : String → String → Bool} (secret : String)
    (nowSec : Nat) {users : List Account} {email password : JsValue} {u : Account}
    (hv : validateAuthPayload email password JsValue.undef false = [])
    (hfe : users.find? (fun v => lowerStr v.email == lowerStr (trimStr (jsStr email)))
      = some u)
    (hb : verifyFn (jsStr password) u.passwordHash = true) :
    login verifyFn secret nowSec users email password =
      { status := 200, success := true, message := "Login successful.", errors := [],
        token := some (jwtSign { id := u.id, username := u.username, email := u.email }
          secret nowSec) } := by
  rw [login_of_valid hv, hfe]
  simp [hb]

/-- Claim C4: a successful login issues a token whose claims are exactly the
authenticated account's id, username and email — the claims structure
carries no other field, in particular never the password hash — with
expiry fixed one hour (3600 seconds) after issuance; verifying the token
before expiry yields exactly those three claims. -/
theorem login_token_exact_claims
    (verifyFn : String → String → Bool) (secret : String) (nowSec : Nat)
    (users : List Account) (email password : JsValue)
    (hs : (login verifyFn secret nowSec users email password).status = 200) :
    ∃ u : Account,
      users.find? (fun v => lowerStr v.email == lowerStr (trimStr (jsStr email)))
        = some u ∧
      (login verifyFn secret nowSec users email password).token =
        some { claims := { id := u.id, username := u.username, email := u.email },
               iat := nowSec, exp := nowSec + oneHourSeconds, sig := secret } ∧
      oneHourSeconds = 3600 ∧
      ∀ t, (login verifyFn secret nowSec users email password).token = some t →
        ∀ checkTime, checkTime < t.exp →
          jwtVerify t secret checkTime =
            some { id := u.id, username := u.username, email := u.email } := by
  by_cases hv : validateAuthPayload email password JsValue.undef false = []
  · rcases hfe : users.find? (fun v => lowerStr v.email == lowerStr (trimStr (jsStr email)))
        with _ | u
    · rw [login_of_valid hv, hfe] at hs
      simp at hs
    · cases hb : verifyFn (jsStr password) u.passwordHash with
      | false =>
        rw [login_of_valid hv, hfe] at hs
        simp [hb] at hs
      | true =>
        have hlogin := login_success_token secret nowSec hv hfe hb
        refine ⟨u, hfe, ?_, rfl, ?_⟩
        · rw [hlogin]
          rfl
        · intro t ht checkTime hct
          rw [hlogin] at ht
          injection ht with ht2
          rw [← ht2] at hct ⊢
          rw [jwtVerify, if_pos]
          · rfl
          · simp only [jwtSign] at hct ⊢
            simp [hct]
  · rw [login_of_invalid hv] at hs
    simp at hs

theorem login_token_exact_claims_witness :
    ∃ u : Account,
      ([{ id := 1, username := "alice", email := "a@b.com", passwordHash := "hpassword123",
          createdAt := "t0" }] : List Account).find?
        (fun v => lowerStr v.email == lowerStr (trimStr (jsStr (JsValue.str "a@b.com"))))
        = some u ∧
      (login (fun p h => h == "h" ++ p) "sec" 100
        [{ id := 1, username := "alice", email := "a@b.com", passwordHash := "hpassword123",
           createdAt := "t0" }]
        (JsValue.str "a@b.com") (JsValue.str "password123")).token =
        some { claims := { id := u.id, username := u.username, email := u.email },
               iat := 100, exp := 100 + oneHourSeconds, sig := "sec" } ∧
      oneHourSeconds = 3600 ∧
      ∀ t, (login (fun p h => h == "h" ++ p) "sec" 100
          [{ id := 1, username := "alice", email := "a@b.com", passwordHash := "hpassword123",
             createdAt := "t0" }]
          (JsValue.str "a@b.com") (JsValue.str "password123")).token = some t →
        ∀ checkTime, checkTime < t.exp →
          jwtVerify t "sec" checkTime =
            some { id := u.id, username := u.username, email := u.email } :=
  login_token_exact_claims (fun p h => h == "h" ++ p) "sec" 100
    [{ id := 1, username := "alice", email := "a@b.com", passwordHash := "hpassword123",
       createdAt := "t0" }]
    (JsValue.str "a@b.com") (JsValue.str "password123") (by decide)

theorem register_preserves {hashFn : String → String} {now : String}
    {users : List Account} {username email password : JsValue}
    (hn : StoreNormalized users) (hi : StoreInvariant users) :
    StoreNormalized (register hashFn now users username email password).2 ∧
    StoreInvariant (register hashFn now users username email password).2 := by
  by_cases hv : validateAuthPayload email password username true = []
  · rw [register_of_valid hv]
    rcases hfe : users.find? (fun u => lowerStr u.email == lowerStr (trimStr (jsStr email)))
        with _ | a
    · rcases hfu : users.find?
          (fun u => lowerStr u.username == lowerStr (trimStr (jsStr username))) with _ | b
      · simp only [hfe, hfu]
        constructor
        · intro x hx
          rcases List.mem_append.mp hx with hx | hx
          · exact hn x hx
          · rw [List.mem_singleton] at hx
            subst hx
            constructor
            · show lowerStr (trimStr (jsStr email)) =
                lowerStr (trimStr (lowerStr (trimStr (jsStr email))))
              rw [trimStr_lowerStr, trimStr_trimStr, lowerStr_lowerStr]
            · show trimStr (jsStr username) = trimStr (trimStr (jsStr username))
              rw [trimStr_trimStr]
        · rw [StoreInvariant, List.pairwise_append]
          refine ⟨hi, List.pairwise_singleton _ _, ?_⟩
          intro x hx y hy
          rw [List.mem_singleton] at hy
          subst hy
          have hxe := hn x hx
          have hfe2 := List.find?_eq_none.mp hfe x hx
          have hfu2 := List.find?_eq_none.mp hfu x hx
          simp only [beq_iff_eq] at hfe2 hfu2
          constructor
          · show normEmail x.email ≠ normEmail (lowerStr (trimStr (jsStr email)))
            simp only [normEmail]
            rw [trimStr_lowerStr, trimStr_trimStr, lowerStr_lowerStr]
            intro hcontra
            apply hfe2
            rw [hxe.1, lowerStr_lowerStr]
            exact hcontra
          · show normUser x.username ≠ normUser (trimStr (jsStr username))
            simp only [normUser]
            rw [trimStr_trimStr]
            intro hcontra
            apply hfu2
            rw [hxe.2]
            exact hcontra
      · simp only [hfe, hfu]
        exact ⟨hn, hi⟩
    · rcases hfu : users.find?
          (fun u => lowerStr u.username == lowerStr (trimStr (jsStr username))) with _ | b <;>
        simp only [hfe, hfu] <;> exact ⟨hn, hi⟩
  · rw [register_of_invalid hv]
    exact ⟨hn, hi⟩

/-- Claim C5: every credential store reachable from the empty store by any
sequence of registration and login requests satisfies the uniqueness
invariant — no two accounts share a normalized email, no two share a
case-insensitively normalized username — and every single operation
preserves the invariant (together with the normalization of stored
fields). -/
theorem store_invariant_reachable (hashFn : String → String) (reqs : List AuthRequest) :
    StoreInvariant (runRequests hashFn reqs) ∧
    ∀ users r, StoreNormalized users → StoreInvariant users →
      StoreNormalized (stepRequest hashFn users r) ∧
        StoreInvariant (stepRequest hashFn users r) := by
  have hstep : ∀ users r, StoreNormalized users → StoreInvariant users →
      StoreNormalized (stepRequest hashFn users r) ∧
        StoreInvariant (stepRequest hashFn users r) := by
    intro users r hn hi
    cases r with
    | registerReq now u e p => exact register_preserves hn hi
    | loginReq e p => exact ⟨hn, hi⟩
  refine ⟨?_, hstep⟩
  have hfold : ∀ l : List AuthRequest, ∀ users, StoreNormalized users → StoreInvariant users →
      StoreNormalized (l.foldl (stepRequest hashFn) users) ∧
        StoreInvariant (l.foldl (stepRequest hashFn) users) := by
    intro l
    induction l with
    | nil => exact fun users hn hi => ⟨hn, hi⟩
    | cons r t ih =>
      intro users hn hi
      have h1 := hstep users r hn hi
      exact ih _ h1.1 h1.2
  exact (hfold reqs [] (fun a ha => absurd ha (List.not_mem_nil a)) List.Pairwise.nil).2

theorem store_invariant_reachable_witness :
    StoreInvariant (runRequests (fun p => "h" ++ p)
      [AuthRequest.registerReq "t0" (JsValue.str "alice") (JsValue.str "a@b.com")
        (JsValue.str "password123"),
        AuthRequest.loginReq (JsValue.str "a@b.com") (JsValue.str "password123"),
        AuthRequest.registerReq "t1" (JsValue.str "bob") (JsValue.str "b@b.com")
          (JsValue.str "password123")]) ∧
    StoreNormalized (stepRequest (fun p => "h" ++ p) []
      (AuthRequest.loginReq (JsValue.str "a@b.com") (JsValue.str "password123"))) :=
  ⟨(store_invariant_reachable (fun p => "h" ++ p)
      [AuthRequest.registerReq "t0" (JsValue.str "alice") (JsValue.str "a@b.com")
        (JsValue.str "password123"),
        AuthRequest.loginReq (JsValue.str "a@b.com") (JsValue.str "password123"),
        AuthRequest.registerReq "t1" (JsValue.str "bob") (JsValue.str "b@b.com")
          (JsValue.str "password123")]).1,
    ((store_invariant_reachable (fun p => "h" ++ p) []).2 []
      (AuthRequest.loginReq (JsValue.str "a@b.com") (JsValue.str "password123"))
      (fun a ha => absurd ha (List.not_mem_nil a)) List.Pairwise.nil).1⟩

/-- Claim C9: the login lookup agrees with the registration normalization: after
a successful registration, logging in with any email string that trims and
lower-cases to the same normalized form, together with the registered
password, succeeds (under the contract of the external verification
primitive that it accepts the hash of the hashed password). -/
theorem login_after_register
    (hashFn : String → String) (verifyFn : String → String → Bool)
    (hverify : ∀ p, verifyFn p (hashFn p) = true)
    (secret : String) (nowSec : Nat) (now : String) (users : List Account)
    (username : JsValue) (e1 p1 e2 : String)
    (hreg : (register hashFn now users username (JsValue.str e1) (JsValue.str p1)).1 =
      RegisterResult.success)
    (he : lowerStr (trimStr e2) = lowerStr (trimStr e1)) :
    (login verifyFn secret nowSec
        (register hashFn now users username (JsValue.str e1) (JsValue.str p1)).2
        (JsValue.str e2) (JsValue.str p1)).status = 200 ∧
    (login verifyFn secret nowSec
        (register hashFn now users username (JsValue.str e1) (JsValue.str p1)).2
        (JsValue.str e2) (JsValue.str p1)).success = true := by
  by_cases hv : validateAuthPayload (JsValue.str e1) (JsValue.str p1) username true = []
  · rw [register_of_valid hv] at hreg ⊢
    rcases hfe : users.find?
        (fun u => lowerStr u.email == lowerStr (trimStr (jsStr (JsValue.str e1))))
        with _ | a
    · rcases hfu : users.find?
          (fun u => lowerStr u.username == lowerStr (trimStr (jsStr username))) with _ | b
      · simp only [hfe, hfu]
        have hcomp := hv
        rw [validateAuthPayload, List.append_eq_nil, List.append_eq_nil] at hcomp
        obtain ⟨⟨he1, hp1⟩, _⟩ := hcomp
        obtain ⟨hreq1, hlen1, hfmt1⟩ := (emailErrors_nil_iff e1).mp (by simpa [jsStr] using he1)
        have htne1 : trimStr e1 ≠ "" := trim_ne_of_requiredFail_false hreq1
        have htne2 : trimStr e2 ≠ "" := by
          intro h0
          apply htne1
          have hz : lowerStr (trimStr e2) = "" := by
            rw [h0]
            exact lowerStr_empty
          rw [he] at hz
          exact (lowerStr_eq_empty_iff _).mp hz
        have hlen2 : (trimStr e2).length = (trimStr e1).length := by
          rw [← length_lowerStr (trimStr e2), he, length_lowerStr]
        have hfmt2 : emailRegexTest (trimStr e2) = true := by
          rw [← emailRegexTest_lowerStr, he, emailRegexTest_lowerStr]
          exact hfmt1
        have he2 : emailErrors (JsValue.str e2) = [] :=
          (emailErrors_nil_iff e2).mpr ⟨requiredFail_str_false htne2, by omega, hfmt2⟩
        have hv2 : validateAuthPayload (JsValue.str e2) (JsValue.str p1) JsValue.undef false
            = [] := by
          rw [validateAuthPayload, he2]
          rw [show passwordErrors (JsValue.str p1) = [] from by simpa [jsStr] using hp1]
          rfl
        rw [login_of_valid hv2]
        simp only [jsStr] at hfe ⊢
        rw [he, List.find?_append, hfe, Option.none_or]
        have hpred : (lowerStr (freshAccount hashFn now users username (JsValue.str e1)
            (JsValue.str p1)).email == lowerStr (trimStr e1)) = true := by
          simp [freshAccount, jsStr, lowerStr_lowerStr]
        have hfind : List.find? (fun u => lowerStr u.email == lowerStr (trimStr e1))
            [freshAccount hashFn now users username (JsValue.str e1) (JsValue.str p1)]
            = some (freshAccount hashFn now users username (JsValue.str e1)
                (JsValue.str p1)) := by
          apply List.find?_cons_of_pos
          exact hpred
        rw [hfind]
        simp [freshAccount, jsStr, hverify p1]
      · simp [hfe, hfu] at hreg
    · rcases hfu : users.find?
          (fun u => lowerStr u.username == lowerStr (trimStr (jsStr username))) with _ | b <;>
        simp [hfe, hfu] at hreg
  · rw [register_of_invalid hv] at hreg
    simp at hreg

theorem login_after_register_witness :
    (login (fun p h => h == "h" ++ p) "sec" 100
        (register (fun p => "h" ++ p) "t0" [] (JsValue.str "alice")
          (JsValue.str "A@Example.com") (JsValue.str "password123")).2
        (JsValue.str "a@example.com") (JsValue.str "password123")).status = 200 ∧
    (login (fun p h => h == "h" ++ p) "sec" 100
        (register (fun p => "h" ++ p) "t0" [] (JsValue.str "alice")
          (JsValue.str "A@Example.com") (JsValue.str "password123")).2
        (JsValue.str "a@example.com") (JsValue.str "password123")).success = true :=
  login_after_register (fun p => "h" ++ p) (fun p h => h == "h" ++ p)
    (fun p => beq_self_eq_true ("h" ++ p)) "sec" 100 "t0" [] (JsValue.str "alice")
    "A@Example.com" "password123" "a@example.com" (by decide) (by decide)

end Auth
